import Mathlib

/-!
Verification of the `neuralnets` repository's sequence models.

The development shallowly embeds the two model units of the repository:

* the hand-written LSTM cell of the plain-PyTorch notebook
  (`class LSTM`: `__init__`, `lstm_unit`, `forward`), and
* the decoder-only transformer notebook
  (`PositionEncoding`, `Attention`, `DecoderTransformer`, `predict`).

Tensors of floating-point numbers are modelled as real-valued functions;
`torch.sigmoid`, `torch.tanh`, `torch.exp`, `torch.sin`, `torch.cos` become
the corresponding `Real` functions. Matrix products and softmax are written
as explicit finite sums, and Python indexing that can raise is modelled with
`Option`.
-/

noncomputable section

open Real Finset

/-! ## The hand-written LSTM cell -/

/-- The twelve scalar parameters registered in `LSTM.__init__`
(`bo1` is declared there even though the math never reads it). -/
structure LSTMParams where
  wlr1 : ℝ
  wlr2 : ℝ
  blr1 : ℝ
  wpr1 : ℝ
  wpr2 : ℝ
  bpr1 : ℝ
  wp1 : ℝ
  wp2 : ℝ
  bp1 : ℝ
  wo1 : ℝ
  wo2 : ℝ
  bo1 : ℝ

/-- `torch.sigmoid`. -/
def sigmoid (x : ℝ) : ℝ := 1 / (1 + Real.exp (-x))

/-- `LSTM.lstm_unit`: one step of the recurrence. The source returns the
two-element list `[updated_long_memory, updated_short_memory]`; we return the
pair. -/
def lstm_unit (p : LSTMParams) (input_value long_memory short_memory : ℝ) :
    ℝ × ℝ :=
  let long_remember_percent :=
    sigmoid (short_memory * p.wlr1 + input_value * p.wlr2 + p.blr1)
  let potential_remember_percent :=
    sigmoid (short_memory * p.wpr1 + input_value * p.wpr2 + p.bpr1)
  let potential_memory :=
    Real.tanh (short_memory * p.wp1 + input_value * p.wp2 + p.bp1)
  let updated_long_memory :=
    long_memory * long_remember_percent +
      potential_remember_percent * potential_memory
  let output_percent :=
    sigmoid (short_memory * p.wo1 + input_value * p.wo2)
  let updated_short_memory := Real.tanh updated_long_memory * output_percent
  (updated_long_memory, updated_short_memory)

/-- `LSTM.forward`: reads `X[0] .. X[3]` (raising on shorter inputs, hence
`Option`), threads the memories through four `lstm_unit` steps starting from
`(0, 0)`, and returns the final short memory. -/
def LSTM.forward (p : LSTMParams) (X : List ℝ) : Option ℝ := do
  let day1 ← X[0]?
  let day2 ← X[1]?
  let day3 ← X[2]?
  let day4 ← X[3]?
  let m1 := lstm_unit p day1 0 0
  let m2 := lstm_unit p day2 m1.1 m1.2
  let m3 := lstm_unit p day3 m2.1 m2.2
  let m4 := lstm_unit p day4 m3.1 m3.2
  return m4.2

/-- Modelled from the spec's per-step equations (section 4.1), with the
spec's parameter names `w_f1 … b_v, w_o1, w_o2`: forget gate, candidate
gate, candidate value, long-memory update, bias-free output gate, and
short-memory update. -/
def lstm_unit_spec (w_f1 w_f2 b_f w_c1 w_c2 b_c w_v1 w_v2 b_v w_o1 w_o2 :
    ℝ) (x L S : ℝ) : ℝ × ℝ :=
  let forget_gate := sigmoid (S * w_f1 + x * w_f2 + b_f)
  let candidate_gate := sigmoid (S * w_c1 + x * w_c2 + b_c)
  let candidate_value := Real.tanh (S * w_v1 + x * w_v2 + b_v)
  let L' := L * forget_gate + candidate_gate * candidate_value
  let output_gate := sigmoid (S * w_o1 + x * w_o2)
  let S' := Real.tanh L' * output_gate
  (L', S')

/-- Modelled from the spec's description of the full pass: fold the step
update over the input list starting from memories `(0, 0)`. -/
def lstmRun (p : LSTMParams) (X : List ℝ) : ℝ × ℝ :=
  X.foldl (fun ls x => lstm_unit p x ls.1 ls.2) (0, 0)

/-- Replace only the (unused) output-gate bias parameter. -/
def setBo1 (p : LSTMParams) (b : ℝ) : LSTMParams :=
  ⟨p.wlr1, p.wlr2, p.blr1, p.wpr1, p.wpr2, p.bpr1,
    p.wp1, p.wp2, p.bp1, p.wo1, p.wo2, b⟩

/-! ## Bounds on the activations -/

lemma sigmoid_pos (x : ℝ) : 0 < sigmoid x := by
  unfold sigmoid
  positivity

lemma sigmoid_lt_one (x : ℝ) : sigmoid x < 1 := by
  unfold sigmoid
  rw [div_lt_one (by positivity)]
  linarith [Real.exp_pos (-x)]

lemma tanh_mem_Ioo (x : ℝ) : -1 < Real.tanh x ∧ Real.tanh x < 1 := by
  rw [Real.tanh_eq_sinh_div_cosh, Real.sinh_eq, Real.cosh_eq]
  have h1 := Real.exp_pos x
  have h2 := Real.exp_pos (-x)
  constructor
  · rw [lt_div_iff₀ (by linarith)]
    linarith
  · rw [div_lt_iff₀ (by linarith)]
    linarith

lemma lstm_unit_snd_mem_Ioo (p : LSTMParams) (x L S : ℝ) :
    -1 < (lstm_unit p x L S).2 ∧ (lstm_unit p x L S).2 < 1 := by
  unfold lstm_unit
  simp only
  set u := L * sigmoid (S * p.wlr1 + x * p.wlr2 + p.blr1) +
    sigmoid (S * p.wpr1 + x * p.wpr2 + p.bpr1) *
      Real.tanh (S * p.wp1 + x * p.wp2 + p.bp1) with hu
  have ht := tanh_mem_Ioo u
  have hs1 := sigmoid_pos (S * p.wo1 + x * p.wo2)
  have hs2 := sigmoid_lt_one (S * p.wo1 + x * p.wo2)
  constructor
  · nlinarith
  · nlinarith

/-! ## Claims about the LSTM cell -/

/-- C3: one `lstm_unit` step computes exactly the spec's gate equations —
forget gate, candidate gate, candidate value, long-memory update, bias-free
output gate, short-memory update — and returns the pair `(L', S')`, under
the parameter correspondence `w_f* ↦ wlr*`, `b_f ↦ blr1`, `w_c* ↦ wpr*`,
`b_c ↦ bpr1`, `w_v* ↦ wp*`, `b_v ↦ bp1`, `w_o* ↦ wo*`. -/
theorem lstm_unit_matches_spec (p : LSTMParams) (x L S : ℝ) :
    lstm_unit p x L S =
      lstm_unit_spec p.wlr1 p.wlr2 p.blr1 p.wpr1 p.wpr2 p.bpr1
        p.wp1 p.wp2 p.bp1 p.wo1 p.wo2 x L S := rfl

/-- C4: on a 4-element input, `LSTM.forward` succeeds and equals the fold
of `lstm_unit` over the elements in input order starting from memories
`(0, 0)`, returning the final short memory: the pass is exactly four
unconditional iterations. -/
theorem lstm_forward_is_fold (p : LSTMParams) (a b c d : ℝ) :
    LSTM.forward p [a, b, c, d] = some (lstmRun p [a, b, c, d]).2 := rfl

/-- C8: on any 4-element input and any parameters, `LSTM.forward` returns a
prediction lying strictly inside `(-1, 1)` (it is
`tanh (updated long memory) * sigmoid (...)`), so it can never equal the
label `1` exactly. -/
theorem lstm_forward_mem_Ioo (p : LSTMParams) (a b c d : ℝ) :
    ∃ y, LSTM.forward p [a, b, c, d] = some y ∧ -1 < y ∧ y < 1 := by
  refine ⟨(lstm_unit p d (lstm_unit p c (lstm_unit p b (lstm_unit p a 0 0).1
      (lstm_unit p a 0 0).2).1 (lstm_unit p b (lstm_unit p a 0 0).1
      (lstm_unit p a 0 0).2).2).1 (lstm_unit p c (lstm_unit p b
      (lstm_unit p a 0 0).1 (lstm_unit p a 0 0).2).1 (lstm_unit p b
      (lstm_unit p a 0 0).1 (lstm_unit p a 0 0).2).2).2).2, rfl, ?_⟩
  exact lstm_unit_snd_mem_Ioo p d _ _

/-- C9: `LSTM.forward` succeeds exactly on inputs of length at least 4, and
only indices `0 .. 3` matter: the result agrees with running on the first
four elements, so later elements never affect the output. -/
theorem lstm_forward_reads_first_four (p : LSTMParams) (X : List ℝ) :
    ((LSTM.forward p X).isSome ↔ 4 ≤ X.length) ∧
      LSTM.forward p X = LSTM.forward p (X.take 4) := by
  rcases X with _ | ⟨a, _ | ⟨b, _ | ⟨c, _ | ⟨d, rest⟩⟩⟩⟩ <;>
    simp [LSTM.forward]

/-- C10: the output-gate bias `bo1` is registered as a parameter but never
read by the computation: changing it (all else equal) leaves `LSTM.forward`
unchanged on every input. -/
theorem lstm_forward_independent_of_bo1 (p : LSTMParams) (b b' : ℝ)
    (X : List ℝ) :
    LSTM.forward (setBo1 p b) X = LSTM.forward (setBo1 p b') X := rfl

/-! ## The decoder transformer

Token sequences are `List ℕ`; a matrix with `n` rows and `d` columns is a
function `ℕ → ℕ → ℝ` read only at indices below `n` and `d`. -/

/-- The three bias-free linear maps of `Attention.__init__`. `nn.Linear`
stores the weight as an (out, in) matrix and applies `x ↦ x Wᵀ`. -/
structure AttnParams where
  Wq : ℕ → ℕ → ℝ
  Wk : ℕ → ℕ → ℝ
  Wv : ℕ → ℕ → ℝ

/-- Apply an `nn.Linear` weight matrix (no bias) to a `d`-vector. -/
def linearMap (d : ℕ) (W : ℕ → ℕ → ℝ) (x : ℕ → ℝ) : ℕ → ℝ :=
  fun o => ∑ i in Finset.range d, W o i * x i

/-- `sims = torch.matmul(q, k.transpose(0, 1))` inside `Attention.forward`,
with `q`, `k` the images of the query/key encodings under `W_q`, `W_k`. -/
def attnSims (d : ℕ) (P : AttnParams) (Xq Xk : ℕ → ℕ → ℝ) : ℕ → ℕ → ℝ :=
  fun i j => ∑ t in Finset.range d,
    linearMap d P.Wq (Xq i) t * linearMap d P.Wk (Xk j) t

/-- `scaled_sims = sims / k.size(1) ** 0.5`. -/
def attnScaled (d : ℕ) (P : AttnParams) (Xq Xk : ℕ → ℕ → ℝ) : ℕ → ℕ → ℝ :=
  fun i j => attnSims d P Xq Xk i j / Real.sqrt d

/-- `scaled_sims.masked_fill(mask, 1e-9)` when a mask is given: entries
where the mask is `true` are replaced by the constant `1e-9`. -/
def attnMasked (d : ℕ) (P : AttnParams) (Xq Xk : ℕ → ℕ → ℝ)
    (mask : Option (ℕ → ℕ → Bool)) : ℕ → ℕ → ℝ :=
  fun i j =>
    match mask with
    | none => attnScaled d P Xq Xk i j
    | some m => if m i j then (1e-9 : ℝ) else attnScaled d P Xq Xk i j

/-- `attention_percents = F.softmax(scaled_sims, dim=1)`: row-wise softmax
over the `nk` key positions. -/
def attnPercents (nk d : ℕ) (P : AttnParams) (Xq Xk : ℕ → ℕ → ℝ)
    (mask : Option (ℕ → ℕ → Bool)) : ℕ → ℕ → ℝ :=
  fun i j =>
    Real.exp (attnMasked d P Xq Xk mask i j) /
      ∑ l in Finset.range nk, Real.exp (attnMasked d P Xq Xk mask i l)

/-- `Attention.forward`: `torch.matmul(attention_percents, v)` with
`v = W_v(encodings_for_v)`. -/
def Attention.forward (nk d : ℕ) (P : AttnParams) (Xq Xk Xv : ℕ → ℕ → ℝ)
    (mask : Option (ℕ → ℕ → Bool)) : ℕ → ℕ → ℝ :=
  fun i t => ∑ j in Finset.range nk,
    attnPercents nk d P Xq Xk mask i j * linearMap d P.Wv (Xv j) t

/-- The frequency factor `div_term` of `PositionEncoding.__init__`:
`1 / 10000 ** (embedding_index / d_model)` at (even) index `j`. -/
def divTerm (d j : ℕ) : ℝ := 1 / (10000 : ℝ) ^ ((j : ℝ) / (d : ℝ))

/-- One entry of the positional-encoding buffer `pe`: even dimensions hold
`sin(position * div_term)`, odd dimensions hold `cos(position * div_term)`
with the frequency of the preceding even dimension. -/
def pe (d p j : ℕ) : ℝ :=
  if j % 2 = 0 then Real.sin (p * divTerm d j)
  else Real.cos (p * divTerm d (j - 1))

/-- The `max_len × d_model` buffer registered by
`PositionEncoding.__init__`, built row by row; it is a pure function of
`(d, maxLen)`, so any two constructions with equal arguments coincide. -/
def peTable (d maxLen : ℕ) : List (List ℝ) :=
  (List.range maxLen).map (fun p => (List.range d).map (fun j => pe d p j))

/-- Read one entry of the positional-encoding table. -/
def peEntry (d maxLen p j : ℕ) : Option ℝ :=
  ((peTable d maxLen)[p]?).bind (fun row => row[j]?)

/-- The embedding table, attention weights and output `fc_layer` of
`DecoderTransformer.__init__`. -/
structure DTParams where
  we : ℕ → ℕ → ℝ
  attn : AttnParams
  fcW : ℕ → ℕ → ℝ
  fcB : ℕ → ℝ

/-- `mask = torch.tril(torch.ones(n, n)) == 0`: `true` strictly above the
diagonal, i.e. exactly at the future positions `j > i`. -/
def causalMask (_n : ℕ) : ℕ → ℕ → Bool := fun i j => decide (i < j)

/-- `self.pe(self.we(token_ids))`: embedding lookup plus positional
encoding. -/
def positionEncoded (P : DTParams) (d : ℕ) (toks : List ℕ) : ℕ → ℕ → ℝ :=
  fun p t => P.we (toks.getD p 0) t + pe d p t

/-- `DecoderTransformer.forward`: position-encoded embeddings, masked
self-attention with the causal mask, residual connection, and the final
linear layer producing per-position logits. -/
def DecoderTransformer.forward (d : ℕ) (P : DTParams) (toks : List ℕ) :
    ℕ → ℕ → ℝ :=
  fun p o =>
    (∑ t in Finset.range d, P.fcW o t *
      (positionEncoded P d toks p t +
        Attention.forward toks.length d P.attn (positionEncoded P d toks)
          (positionEncoded P d toks) (positionEncoded P d toks)
          (some (causalMask toks.length)) p t)) + P.fcB o

/-! ## Claims about the attention block -/

/-- C6: every row of the attention-weight matrix produced by the softmax in
`Attention.forward` sums to exactly 1 (in particular within `1e-6`), for any
key count `nk ≥ 1`, any dimension, any parameters, any encodings, and with
or without a mask. -/
theorem attention_row_sum_one (nk d : ℕ) (P : AttnParams)
    (Xq Xk : ℕ → ℕ → ℝ) (mask : Option (ℕ → ℕ → Bool)) (i : ℕ)
    (h : 0 < nk) :
    ∑ j in Finset.range nk, attnPercents nk d P Xq Xk mask i j = 1 := by
  have hZ : 0 < ∑ l in Finset.range nk,
      Real.exp (attnMasked d P Xq Xk mask i l) :=
    Finset.sum_pos (fun l _ => Real.exp_pos _)
      (Finset.nonempty_range_iff.mpr h.ne')
  unfold attnPercents
  rw [← Finset.sum_div, div_self hZ.ne']

/-- All-zero attention parameters except an identity value map; used as a
concrete instantiation below. -/
def attnZeroQK : AttnParams :=
  ⟨fun _ _ => 0, fun _ _ => 0, fun o i => if o = i then 1 else 0⟩

/-- Witness for C6 at `nk = d = 1`, zero encodings, no mask, row 0. -/
theorem attention_row_sum_one_witness :
    0 < 1 ∧
      ∑ j in Finset.range 1,
        attnPercents 1 1 attnZeroQK (fun _ _ => 0) (fun _ _ => 0) none 0 j
        = 1 :=
  ⟨Nat.one_pos,
    attention_row_sum_one 1 1 attnZeroQK (fun _ _ => 0) (fun _ _ => 0)
      none 0 Nat.one_pos⟩

/-- C7: for every position `p < maxLen` and pair index `i` with
`2i+1 < d`, the positional-encoding table holds
`sin (p / 10000 ^ (2i/d))` at even dimension `2i` and
`cos (p / 10000 ^ (2i/d))` at odd dimension `2i+1`; the table is a pure
function of `(d, maxLen)` (no randomness), so separately constructed
instances with equal arguments are definitionally identical. -/
theorem peTable_entries (d maxLen p i : ℕ) (hp : p < maxLen)
    (hd : 2 * i + 1 < d) :
    peEntry d maxLen p (2 * i) =
      some (Real.sin (p * (1 / (10000 : ℝ) ^ ((2 * (i : ℝ)) / (d : ℝ))))) ∧
    peEntry d maxLen p (2 * i + 1) =
      some (Real.cos (p * (1 / (10000 : ℝ) ^ ((2 * (i : ℝ)) / (d : ℝ))))) := by
  have h1 : 2 * i < d := by omega
  have hcast : ((2 * i : ℕ) : ℝ) = 2 * (i : ℝ) := by push_cast; ring
  constructor
  · simp [peEntry, peTable, List.getElem?_map, List.getElem?_range, hp, h1,
      hd, pe, Nat.mul_mod_right, divTerm, hcast]
  · have hodd : (2 * i + 1) % 2 = 1 := by omega
    simp [peEntry, peTable, List.getElem?_map, List.getElem?_range, hp, h1,
      hd, pe, hodd, divTerm, hcast]

/-- Witness for C7 at `d = 2`, `maxLen = 6`, `p = 1`, `i = 0`. -/
theorem peTable_entries_witness :
    1 < 6 ∧ 2 * 0 + 1 < 2 ∧
      (peEntry 2 6 1 (2 * 0) =
        some (Real.sin (1 * (1 / (10000 : ℝ) ^ ((2 * (0 : ℝ)) / (2 : ℝ))))) ∧
      peEntry 2 6 1 (2 * 0 + 1) =
        some (Real.cos (1 * (1 / (10000 : ℝ) ^ ((2 * (0 : ℝ)) / (2 : ℝ)))))) :=
  ⟨by norm_num, by norm_num,
    by exact_mod_cast peTable_entries 2 6 1 0 (by norm_num) (by norm_num)⟩

/-- C2's failing input, evaluated in the code's model: with zero query/key
weights and a length-2 sequence, the causal mask fills the future entry
`(0, 1)` with `1e-9` — not `-∞` — so after softmax that masked entry keeps
attention weight `exp(1e-9) / (exp 0 + exp(1e-9)) > 1/2`, nowhere near 0.
This refutes "masked-out future positions receive (near-)zero attention
weight" as a property of `Attention.forward`. -/
theorem masked_attention_weight_above_half :
    (1 : ℝ) / 2 <
      attnPercents 2 1 attnZeroQK (fun _ _ => 0) (fun _ _ => 0)
        (some (causalMask 2)) 0 1 := by
  have he : 1 < Real.exp (1e-9) := Real.one_lt_exp_iff.mpr (by norm_num)
  have hp := Real.exp_pos (1e-9 : ℝ)
  simp only [attnPercents, attnMasked, attnScaled, attnSims, linearMap,
    causalMask, attnZeroQK, Finset.sum_range_succ, Finset.sum_range_zero]
  norm_num
  rw [lt_div_iff₀ (by positivity)]
  linarith

/-- Concrete decoder parameters exhibiting the causality failure: embedding
table sending token 1 to `(1, 0)` and all others to `(0, 0)`, zero
query/key weights, identity value and output weights, zero bias. -/
def dtBug : DTParams :=
  ⟨fun t j => if t = 1 ∧ j = 0 then 1 else 0, attnZeroQK,
    fun o t => if o = t then 1 else 0, fun _ => 0⟩

/-- C1's failing input, evaluated in the code's model: the token sequences
`[0, 0]` and `[0, 1]` agree at position 0, yet the logits produced by
`DecoderTransformer.forward` at position 0 differ, because the `1e-9` mask
fill leaves a positive attention weight on the future position 1. The
decoder block is therefore not causal. -/
theorem decoder_forward_not_causal :
    DecoderTransformer.forward 2 dtBug [0, 0] 0 0 ≠
      DecoderTransformer.forward 2 dtBug [0, 1] 0 0 := by
  have hp := Real.exp_pos (1e-9 : ℝ)
  have hp0 := Real.exp_pos (0 : ℝ)
  simp only [DecoderTransformer.forward, Attention.forward, attnPercents,
    attnMasked, attnScaled, attnSims, linearMap, causalMask, positionEncoded,
    pe, divTerm, dtBug, attnZeroQK, Finset.sum_range_succ,
    Finset.sum_range_zero, List.getD, List.length_cons, List.length_nil]
  norm_num
  intro h
  nlinarith [h]

/-! ## Autoregressive generation (`predict`) -/

/-- `torch.argmax` over the logits at indices `0 .. V-1`: index of the
first maximal value. -/
def argmaxIdx (f : ℕ → ℝ) : ℕ → ℕ
  | 0 => 0
  | n + 1 => if f (argmaxIdx f n) < f n then n else argmaxIdx f n

/-- The next-token function of `predict`: run the full forward pass on the
current sequence and take the argmax of the logits at the last position. -/
def modelNextToken (V d : ℕ) (P : DTParams) (toks : List ℕ) : ℕ :=
  argmaxIdx (DecoderTransformer.forward d P toks (toks.length - 1)) V

/-- The `for i in range(input_length, max_length)` loop of `predict`,
recursing on the remaining iteration count. Given the last predicted token,
it stops at once on `<EOS>`; otherwise it appends the token, reruns the
full forward pass on the grown sequence, and records the new prediction.
Returns the tokens generated in the loop together with the number of
forward passes performed inside the loop. -/
def predictLoop (nextTok : List ℕ → ℕ) (eos : ℕ) :
    ℕ → List ℕ → ℕ → List ℕ × ℕ
  | 0, _, _ => ([], 0)
  | fuel + 1, modelInput, predictedId =>
    if predictedId = eos then ([], 0)
    else
      let grown := modelInput ++ [predictedId]
      let next := nextTok grown
      let rest := predictLoop nextTok eos fuel grown next
      (next :: rest.1, rest.2 + 1)

/-- `predict`: one initial forward pass on the seed, then the generation
loop with `max_length - input_length` available iterations. Returns the
predicted ids and the total number of forward passes. -/
def predict (nextTok : List ℕ → ℕ) (eos maxLength : ℕ)
    (modelInput : List ℕ) : List ℕ × ℕ :=
  let predictedId := nextTok modelInput
  let rest :=
    predictLoop nextTok eos (maxLength - modelInput.length) modelInput
      predictedId
  (predictedId :: rest.1, rest.2 + 1)

lemma predictLoop_count_le (nextTok : List ℕ → ℕ) (eos : ℕ) :
    ∀ fuel s p, (predictLoop nextTok eos fuel s p).2 ≤ fuel := by
  intro fuel
  induction fuel with
  | zero => intro s p; simp [predictLoop]
  | succ n ih =>
    intro s p
    by_cases h : p = eos
    · simp [predictLoop, h]
    · simpa [predictLoop, h] using
        ih (s ++ [p]) (nextTok (s ++ [p]))

/-- C5: for any model parameters and any seed of length at most
`max_length = 6`, the generation loop of `predict` performs at most
`6 - input_length` forward passes beyond the initial one (so `predict`
performs at most `6 - input_length + 1` in total), and the loop stops
immediately — zero further passes — once the end-of-sequence token has been
produced. -/
theorem predict_pass_bounded (V d : ℕ) (P : DTParams) (eos : ℕ)
    (seed : List ℕ) (_h : seed.length ≤ 6) :
    (predict (modelNextToken V d P) eos 6 seed).2 ≤ (6 - seed.length) + 1 ∧
      ∀ fuel s, predictLoop (modelNextToken V d P) eos fuel s eos =
        ([], 0) := by
  constructor
  · have := predictLoop_count_le (modelNextToken V d P) eos
      (6 - seed.length) seed (modelNextToken V d P seed)
    simpa [predict] using this
  · intro fuel s
    cases fuel with
    | zero => simp [predictLoop]
    | succ n => simp [predictLoop]

/-- All-zero decoder parameters, for the concrete instantiation below. -/
def dtZero : DTParams :=
  ⟨fun _ _ => 0, ⟨fun _ _ => 0, fun _ _ => 0, fun _ _ => 0⟩,
    fun _ _ => 0, fun _ => 0⟩

/-- Witness for C5: the notebook's seed `what is kael <EOS>` (ids
`[0, 1, 2, 4]`, length 4 ≤ 6) with `eos = 4` and a concrete model. -/
theorem predict_pass_bounded_witness :
    ([0, 1, 2, 4] : List ℕ).length ≤ 6 ∧
      ((predict (modelNextToken 5 2 dtZero) 4 6 [0, 1, 2, 4]).2 ≤
        (6 - ([0, 1, 2, 4] : List ℕ).length) + 1 ∧
      ∀ fuel s, predictLoop (modelNextToken 5 2 dtZero) 4 fuel s 4 =
        ([], 0)) :=
  ⟨by decide, predict_pass_bounded 5 2 dtZero 4 [0, 1, 2, 4] (by decide)⟩
